import Mathlib

/-!
Verification development for the shift-scheduling application (`app.py`).

The embedding below translates, from the source:
  * `check_daily_constraints` (the Feasibility Checker), together with its
    helper dictionary lookups (Python `dict.get` semantics, where a later
    binding of the same key wins, and an empty dict is falsy);
  * the CP-SAT hard-constraint system built in `admin_screen`'s
    "計算実行" handler (the Schedule Solver): any matrix the solver returns
    satisfies exactly these constraints, so "schedule returned by the
    solver" is rendered as "boolean matrix satisfying `hardConstraints`";
  * the Phase-1 addition-merge loop, the Phase-2 reduction-lottery loop
    (`lotteryStep`/`runLottery`, operating on the already-shuffled request
    batch, as `random.shuffle` only fixes the processing order), and the
    phase-gated composite operations;
  * `update_log_sheet` (the HistoryLog fold); `pandas.sort_values` on the
    date column is modelled by a sorting function (the claims concern only
    sortedness and multiset content, which any sort satisfies).

Cell values, statuses and skill flags keep the source's concrete strings
("1"/"0", "申請"/"承認"/"却下", "出勤希望"/"休み希望"); the spec's
language-A / language-B skills are the source's `jp` / `en` flags (the
order the checker tests them in).
-/

set_option maxRecDepth 20000

namespace KclinicShift

/-- A staff-roster record (`get_staff_list` row): skill flags already
normalised to booleans, annual holiday entitlement as read by
`int(sv.get('holiday_target', ...))`. -/
structure Staff where
  name : String
  en : Bool
  jp : Bool
  vet : Bool
  holiday_target : Int
deriving DecidableEq

instance : Inhabited Staff := ⟨⟨"", false, false, false, 0⟩⟩

/-- Python `dict.get k dflt` over an association list built by successive
insertions: the last binding of a key wins. -/
def dictGet (m : List (Nat × Nat)) (k dflt : Nat) : Nat :=
  (m.foldl (fun acc p => if p.1 == k then some p.2 else acc) none).getD dflt

/-- The value `str(shift_column.get(nm, ...))` (default "0"): the cell value a staff name maps to in
the per-day on-duty map, defaulting to "0" when the name is absent
(row labels are assumed unique, as a pandas index converted by `to_dict`). -/
def strVal (col : List (String × String)) (nm : String) : String :=
  match col.find? (fun p => p.1 == nm) with
  | some p => p.2
  | none => "0"

/-- The `working_staffs` accumulation in `check_daily_constraints`: a staff
member counts as on duty exactly when their cell value is the string "1". -/
def workingStaffs (staffs : List Staff) (col : List (String × String)) : List Staff :=
  staffs.filter (fun s => strVal col s.name == "1")

/-- The `required` headcount in `check_daily_constraints`: 4 unless both a
requirement map and a day index are supplied and the map is non-empty
(an empty Python dict is falsy), in which case `map.get(day, 4)`. -/
def requiredOf (rm : Option (List (Nat × Nat))) (di : Option Nat) : Nat :=
  match rm, di with
  | some m, some d => if m.isEmpty then 4 else dictGet m d 4
  | _, _ => 4

/-- The checker `check_daily_constraints(staffs_list, shift_column,
required_count_map, current_day_idx)`: pass/fail plus the reason string, testing, in order,
headcount, Japanese speakers (`jp`), English speakers (`en`), veterans
(`vet`), short-circuiting at the first failure. -/
def check_daily_constraints (staffs : List Staff) (col : List (String × String))
    (rm : Option (List (Nat × Nat))) (di : Option Nat) : Bool × String :=
  if (workingStaffs staffs col).length < requiredOf rm di then
    (false, "人数不足(必要" ++ toString (requiredOf rm di) ++ "人 -> 現在"
      ++ toString (workingStaffs staffs col).length ++ "人)")
  else if (workingStaffs staffs col).countP (fun s => s.jp) < 1 then
    (false, "日本語話者不足")
  else if (workingStaffs staffs col).countP (fun s => s.en) < 1 then
    (false, "英語話者不足")
  else if (workingStaffs staffs col).countP (fun s => s.vet) < 1 then
    (false, "ベテラン不足")
  else
    (true, "OK")

lemma dictGet_of_no_key (m : List (Nat × Nat)) (k dflt : Nat)
    (h : ∀ p ∈ m, p.1 ≠ k) : dictGet m k dflt = dflt := by
  unfold dictGet
  suffices hs : (m.foldl (fun acc p => if p.1 == k then some p.2 else acc)
      (none : Option Nat)) = none by rw [hs]; rfl
  induction m with
  | nil => rfl
  | cons p l ih =>
    have hp : (p.1 == k) = false := by
      simpa using h p (List.mem_cons_self p l)
    simp only [List.foldl_cons, hp, if_neg, Bool.false_eq_true, not_false_iff]
    exact ih (fun q hq => h q (List.mem_cons_of_mem p hq))

/-- C5: the Feasibility Checker performs its checks in the fixed order
headcount, language-A (jp), language-B (en), veteran; it short-circuits at
the first failure, returning `false` with that check's reason, and returns
`(true, "OK")` exactly when all four checks hold. -/
theorem check_daily_constraints_order (staffs : List Staff)
    (col : List (String × String)) (rm : Option (List (Nat × Nat))) (di : Option Nat) :
    ((check_daily_constraints staffs col rm di).1 = true ↔
      (requiredOf rm di ≤ (workingStaffs staffs col).length ∧
       1 ≤ (workingStaffs staffs col).countP (fun s => s.jp) ∧
       1 ≤ (workingStaffs staffs col).countP (fun s => s.en) ∧
       1 ≤ (workingStaffs staffs col).countP (fun s => s.vet))) ∧
    ((workingStaffs staffs col).length < requiredOf rm di →
      check_daily_constraints staffs col rm di =
        (false, "人数不足(必要" ++ toString (requiredOf rm di) ++ "人 -> 現在"
          ++ toString (workingStaffs staffs col).length ++ "人)")) ∧
    (requiredOf rm di ≤ (workingStaffs staffs col).length →
      (workingStaffs staffs col).countP (fun s => s.jp) = 0 →
      check_daily_constraints staffs col rm di = (false, "日本語話者不足")) ∧
    (requiredOf rm di ≤ (workingStaffs staffs col).length →
      1 ≤ (workingStaffs staffs col).countP (fun s => s.jp) →
      (workingStaffs staffs col).countP (fun s => s.en) = 0 →
      check_daily_constraints staffs col rm di = (false, "英語話者不足")) ∧
    (requiredOf rm di ≤ (workingStaffs staffs col).length →
      1 ≤ (workingStaffs staffs col).countP (fun s => s.jp) →
      1 ≤ (workingStaffs staffs col).countP (fun s => s.en) →
      (workingStaffs staffs col).countP (fun s => s.vet) = 0 →
      check_daily_constraints staffs col rm di = (false, "ベテラン不足")) ∧
    (requiredOf rm di ≤ (workingStaffs staffs col).length →
      1 ≤ (workingStaffs staffs col).countP (fun s => s.jp) →
      1 ≤ (workingStaffs staffs col).countP (fun s => s.en) →
      1 ≤ (workingStaffs staffs col).countP (fun s => s.vet) →
      check_daily_constraints staffs col rm di = (true, "OK")) := by
  unfold check_daily_constraints
  split_ifs with h1 h2 h3 h4
  · exact ⟨⟨fun h => h.elim, fun hc => absurd hc.1 (by omega)⟩,
      fun _ => rfl, fun h _ => absurd h (by omega),
      fun h _ _ => absurd h (by omega), fun h _ _ _ => absurd h (by omega),
      fun h _ _ _ => absurd h (by omega)⟩
  · exact ⟨⟨fun h => h.elim, fun hc => absurd hc.2.1 (by omega)⟩,
      fun h => absurd h (by omega), fun _ _ => rfl,
      fun _ hj _ => absurd hj (by omega), fun _ hj _ _ => absurd hj (by omega),
      fun _ hj _ _ => absurd hj (by omega)⟩
  · exact ⟨⟨fun h => h.elim, fun hc => absurd hc.2.2.1 (by omega)⟩,
      fun h => absurd h (by omega), fun _ hj0 => absurd hj0 (by omega),
      fun _ _ _ => rfl, fun _ _ he _ => absurd he (by omega),
      fun _ _ he _ => absurd he (by omega)⟩
  · exact ⟨⟨fun h => h.elim, fun hc => absurd hc.2.2.2 (by omega)⟩,
      fun h => absurd h (by omega), fun _ hj0 => absurd hj0 (by omega),
      fun _ _ he0 => absurd he0 (by omega), fun _ _ _ _ => rfl,
      fun _ _ _ hv => absurd hv (by omega)⟩
  · exact ⟨⟨fun _ => ⟨by omega, by omega, by omega, by omega⟩, fun _ => rfl⟩,
      fun h => absurd h (by omega), fun _ hj0 => absurd hj0 (by omega),
      fun _ _ he0 => absurd he0 (by omega), fun _ _ _ hv0 => absurd hv0 (by omega),
      fun _ _ _ _ => rfl⟩

/-- C5 witness: on a concrete roster and column where only the veteran check
fails, the checker reports exactly the veteran reason. -/
theorem check_daily_constraints_order_witness :
    check_daily_constraints
      [⟨"a", true, true, false, 0⟩, ⟨"b", true, true, false, 0⟩,
       ⟨"c", true, true, false, 0⟩, ⟨"d", true, true, false, 0⟩]
      [("a", "1"), ("b", "1"), ("c", "1"), ("d", "1")] none none =
      (false, "ベテラン不足") := by
  have h := check_daily_constraints_order
    [⟨"a", true, true, false, 0⟩, ⟨"b", true, true, false, 0⟩,
     ⟨"c", true, true, false, 0⟩, ⟨"d", true, true, false, 0⟩]
    [("a", "1"), ("b", "1"), ("c", "1"), ("d", "1")] none none
  exact h.2.2.2.2.1 (by decide) (by decide) (by decide) (by decide)

/-- C10: a staff member absent from the per-day map, or whose cell is any
string other than exactly "1", is counted as resting; and the required
headcount defaults to 4 when the requirement map or the day index is not
supplied, or the day index is missing from the map. -/
theorem check_daily_constraints_defaults :
    (∀ (staffs : List Staff) (col : List (String × String)) (s : Staff),
      s ∈ staffs → strVal col s.name ≠ "1" → s ∉ workingStaffs staffs col) ∧
    (∀ (col : List (String × String)) (nm : String),
      col.find? (fun p => p.1 == nm) = none → strVal col nm = "0") ∧
    (∀ di : Option Nat, requiredOf none di = 4) ∧
    (∀ rm : Option (List (Nat × Nat)), requiredOf rm none = 4) ∧
    (∀ (m : List (Nat × Nat)) (d : Nat),
      (∀ p ∈ m, p.1 ≠ d) → requiredOf (some m) (some d) = 4) := by
  refine ⟨?_, ?_, ?_, ?_, ?_⟩
  · intro staffs col s _ hne hmem
    exact hne (by simpa using (List.mem_filter.mp hmem).2)
  · intro col nm h
    unfold strVal
    rw [h]
  · intro di; cases di <;> rfl
  · intro rm; cases rm <;> rfl
  · intro m d h
    have hr : requiredOf (some m) (some d) = if m.isEmpty then 4 else dictGet m d 4 := rfl
    rw [hr]
    by_cases hm : m.isEmpty
    · rw [if_pos hm]
    · rw [if_neg hm]
      exact dictGet_of_no_key m d 4 h

/-! ## The Schedule Solver (CP-SAT model of the 計算実行 handler)

Inputs the handler assembles before building the model; forced-rest cells
are given already resolved to (staff index, day index) pairs, as the
handler does via `staff_name_to_index` and date parsing, and the trailing
previous-month history (`prev_month_history`) keeps its dictionary keys
(staff index, negative day offset). -/

/-- Python `calendar.isleap`. -/
def isLeap (y : Nat) : Bool := (y % 4 == 0 && y % 100 != 0) || y % 400 == 0

/-- Python `calendar.monthrange(y, m)[1]`: number of days of the month. -/
def monthDays (y m : Nat) : Nat :=
  if m == 2 then (if isLeap y then 29 else 28)
  else if m == 4 || m == 6 || m == 9 || m == 11 then 30
  else 31

/-- Everything the 計算実行 handler feeds into the CP-SAT model. -/
structure SolveInput where
  year : Nat
  month : Nat
  ph : List Nat
  staffs : List Staff
  reqMap : List (Nat × Nat)
  reqHolidays : Nat
  forcedRest : List (Nat × Nat)
  hist : List ((Nat × Int) × Nat)
  past : List (String × Nat)

/-- The `num_days` of the target month. -/
def nDays (I : SolveInput) : Nat := monthDays I.year I.month

/-- Lookup `prev_month_history.get((s, d), 0)` for a negative day offset `d`. -/
def histGet (h : List ((Nat × Int) × Nat)) (k : Nat × Int) : Nat :=
  (h.foldl (fun acc p => if p.1 == k then some p.2 else acc) none).getD 0

/-- Lookup `past_holidays_count.get(name, 0)`. -/
def pastGet (l : List (String × Nat)) (nm : String) : Nat :=
  (l.foldl (fun acc p => if p.1 == nm then some p.2 else acc) none).getD 0

/-- Indexing `staffs[s]`. -/
def staffAt (I : SolveInput) (s : Nat) : Staff := I.staffs.getD s default

/-- Number of staff on duty on day `d` (`sum(shifts[(s, d)] for s in all_staff)`). -/
def countWorking (I : SolveInput) (W : Nat → Nat → Bool) (d : Nat) : Nat :=
  (List.range I.staffs.length).countP (fun s => W s d)

/-- Number of on-duty staff on day `d` with a given skill flag. -/
def countFlagged (I : SolveInput) (W : Nat → Nat → Bool) (f : Staff → Bool) (d : Nat) : Nat :=
  (List.range I.staffs.length).countP (fun s => W s d && f (staffAt I s))

/-- Days staff `s` works in the month. -/
def workCount (I : SolveInput) (W : Nat → Nat → Bool) (s : Nat) : Nat :=
  (List.range (nDays I)).countP (fun d => W s d)

/-- Rest days `off = sum(1 - shifts[(si, d)] for d in all_days)`. -/
def offCount (I : SolveInput) (W : Nat → Nat → Bool) (s : Nat) : Nat :=
  nDays I - workCount I W s

/-- The quantity `ned = min(num_days, max(0, tgt - pst))`: the exact remaining holiday
entitlement used in the December branch, floored at 0 and capped at the
number of days of the month. -/
def nedOf (I : SolveInput) (s : Nat) : Nat :=
  (min ((nDays I : Int))
    (max 0 ((staffAt I s).holiday_target - (pastGet I.past (staffAt I s).name : Nat)))).toNat

def boolNat (b : Bool) : Nat := if b then 1 else 0

/-- The helper `gsv(s, d)`: previous-month history for negative `d`, the matrix value
inside the month, 0 beyond it. -/
def gsv (I : SolveInput) (W : Nat → Nat → Bool) (s : Nat) (d : Int) : Nat :=
  if d < 0 then histGet I.hist (s, d)
  else if d < (nDays I : Int) then boolNat (W s d.toNat)
  else 0

/-- Sum of a 5-day rolling window starting at (possibly negative) `start`. -/
def windowSum (I : SolveInput) (W : Nat → Nat → Bool) (s : Nat) (start : Int) : Nat :=
  gsv I W s start + gsv I W s (start + 1) + gsv I W s (start + 2) +
    gsv I W s (start + 3) + gsv I W s (start + 4)

/-- All the hard constraints the 計算実行 handler adds to the CP-SAT model;
a schedule the solver returns (OPTIMAL or FEASIBLE) satisfies exactly
these.  In order: public-holiday rest, forced-rest cells from leave
requests, the January day-index-3 all-duty rule, the per-day
headcount/coverage block (which skips holidays and January day 3), the
per-staff holiday quota (December exact-entitlement branch vs the normal
`[req_holidays, req_holidays+1]` band), every 5-day rolling window
(`start` ranging over `range(-4, num_days-4)`, i.e. `k - 4` for
`k < num_days`; each such window contains an in-month variable, so the
`any(isinstance(...))` guard in the source is always true), and the
no-isolated-workday rule for interior days other than January day 3. -/
def hardConstraints (I : SolveInput) (W : Nat → Nat → Bool) : Prop :=
  (∀ d ∈ I.ph, ∀ s, s < I.staffs.length → W s d = false) ∧
  (∀ p ∈ I.forcedRest, W p.1 p.2 = false) ∧
  ((I.month = 1 ∧ 4 ≤ nDays I ∧ 3 ∉ I.ph) → ∀ s, s < I.staffs.length → W s 3 = true) ∧
  (∀ d, d < nDays I → d ∉ I.ph → ¬(I.month = 1 ∧ d = 3) →
    (dictGet I.reqMap d 4 ≤ countWorking I W d ∧
     countWorking I W d ≤ dictGet I.reqMap d 4 + 2 ∧
     1 ≤ countFlagged I W (fun st => st.jp) d ∧
     1 ≤ countFlagged I W (fun st => st.en) d ∧
     1 ≤ countFlagged I W (fun st => st.vet) d)) ∧
  (∀ s, s < I.staffs.length →
    ((I.month = 12 → nedOf I s ≤ offCount I W s) ∧
     (I.month ≠ 12 →
       I.reqHolidays ≤ offCount I W s ∧ offCount I W s ≤ I.reqHolidays + 1))) ∧
  (∀ s, s < I.staffs.length → ∀ k, k < nDays I → windowSum I W s ((k : Int) - 4) ≤ 4) ∧
  (∀ s, s < I.staffs.length → ∀ d, d < nDays I →
    (1 ≤ d ∧ d + 1 < nDays I ∧ ¬(I.month = 1 ∧ d = 3) ∧ W s d = true) →
    (W s (d - 1) = true ∨ W s (d + 1) = true))

instance hardConstraintsDecidable (I : SolveInput) (W : Nat → Nat → Bool) :
    Decidable (hardConstraints I W) := by
  unfold hardConstraints
  exact @instDecidableAnd _ _ inferInstance
    (@instDecidableAnd _ _ inferInstance
      (@instDecidableAnd _ _ inferInstance
        (@instDecidableAnd _ _ inferInstance
          (@instDecidableAnd _ _ inferInstance
            (@instDecidableAnd _ _ inferInstance inferInstance)))))

/-! ### A concrete solver output for January

A 7-staff, 31-day January instance (no holidays, no leave requests, empty
requirement plan so every day's minimum is the default 4, administrator
holiday band 8): the matrix below satisfies every hard constraint of the
model, yet on day index 3 all 7 staff are on duty, exceeding the
`minimum + 2` cap — the daily headcount/coverage block skips that day in
January. -/

def cexStaffs : List Staff :=
  [⟨"S1", true, true, true, 120⟩, ⟨"S2", true, true, true, 120⟩,
   ⟨"S3", true, true, true, 120⟩, ⟨"S4", true, true, true, 120⟩,
   ⟨"S5", true, true, true, 120⟩, ⟨"S6", true, true, true, 120⟩,
   ⟨"S7", true, true, true, 120⟩]

def cexRows : List (List Bool) :=
  [[true, true, false, true, true, true, true, false, true, true, true, true, false, true, true, true, true, false, true, true, false, false, true, true, true, false, false, true, true, false, true],
   [true, true, false, true, true, true, true, false, true, true, true, false, true, true, false, false, true, true, false, true, true, true, false, true, true, true, false, true, true, false, true],
   [true, false, true, true, true, true, false, true, true, true, false, true, true, false, true, true, true, true, false, true, true, true, false, false, true, true, true, false, true, true, true],
   [true, true, true, true, false, false, true, true, true, false, false, true, true, false, true, true, false, true, true, true, true, false, true, true, true, false, true, true, true, true, false],
   [false, true, true, true, false, true, true, false, false, true, true, true, false, true, true, true, true, false, true, true, true, false, true, true, false, true, true, true, false, true, true],
   [true, false, true, true, true, false, true, true, true, true, false, false, true, true, true, true, false, true, true, false, true, true, true, false, true, true, true, false, true, true, false],
   [true, false, true, true, false, true, true, true, false, true, true, true, true, false, true, true, true, false, false, false, true, true, false, true, true, true, false, true, true, true, true]]

def cexW (s d : Nat) : Bool := (cexRows.getD s []).getD d false

def cexInput : SolveInput :=
  { year := 2026, month := 1, ph := [], staffs := cexStaffs, reqMap := [],
    reqHolidays := 8, forcedRest := [], hist := [], past := [] }

lemma cex_hardConstraints : hardConstraints cexInput cexW := by decide

/-- C1 counterexample: the claim fails as stated — a schedule satisfying
every solver constraint for January where non-holiday day index 3 has all
7 staff on duty, strictly more than the plan minimum (4) plus 2. -/
theorem solver_daily_bounds_cex :
    hardConstraints cexInput cexW ∧ 3 < nDays cexInput ∧ 3 ∉ cexInput.ph ∧
      dictGet cexInput.reqMap 3 4 + 2 < countWorking cexInput cexW 3 :=
  ⟨cex_hardConstraints, by decide, by decide, by decide⟩

/-- C1 (amended): for every schedule satisfying the solver's hard
constraints and every non-holiday day of the month — except day index 3 in
January, which the daily block skips (that day instead forces all staff on
duty) — the on-duty count lies between the plan minimum and the plan
minimum plus 2, and the on-duty staff include at least one language-A
(`jp`) speaker, one language-B (`en`) speaker, and one veteran. -/
theorem solver_daily_bounds (I : SolveInput) (W : Nat → Nat → Bool)
    (h : hardConstraints I W) :
    ∀ d, d < nDays I → d ∉ I.ph → ¬(I.month = 1 ∧ d = 3) →
      dictGet I.reqMap d 4 ≤ countWorking I W d ∧
      countWorking I W d ≤ dictGet I.reqMap d 4 + 2 ∧
      1 ≤ countFlagged I W (fun st => st.jp) d ∧
      1 ≤ countFlagged I W (fun st => st.en) d ∧
      1 ≤ countFlagged I W (fun st => st.vet) d :=
  h.2.2.2.1

/-- C1 witness: the amended bounds evaluated on day 0 of the concrete
January instance. -/
theorem solver_daily_bounds_witness :
    dictGet cexInput.reqMap 0 4 ≤ countWorking cexInput cexW 0 ∧
      countWorking cexInput cexW 0 ≤ dictGet cexInput.reqMap 0 4 + 2 := by
  have h := solver_daily_bounds cexInput cexW cex_hardConstraints 0
    (by decide) (by decide) (by decide)
  exact ⟨h.1, h.2.1⟩

/-- C3: in a December solve each staff member's monthly rest-day count is
at least the exact remaining entitlement (annual target minus rest days
already taken this year, floored at zero, capped at days-in-month); in any
other month it lies within `[target, target+1]` for the
administrator-supplied minimum `target`; and a negative remaining
entitlement is clamped to zero. -/
theorem solver_holiday_quota (I : SolveInput) (W : Nat → Nat → Bool)
    (h : hardConstraints I W) :
    (I.month = 12 → ∀ s, s < I.staffs.length → nedOf I s ≤ offCount I W s) ∧
    (I.month ≠ 12 → ∀ s, s < I.staffs.length →
      I.reqHolidays ≤ offCount I W s ∧ offCount I W s ≤ I.reqHolidays + 1) ∧
    (∀ s, (staffAt I s).holiday_target ≤ (pastGet I.past (staffAt I s).name : Nat) →
      nedOf I s = 0) := by
  refine ⟨fun hm s hs => (h.2.2.2.2.1 s hs).1 hm,
    fun hm s hs => (h.2.2.2.2.1 s hs).2 hm, fun s hle => ?_⟩
  simp only [nedOf]
  omega

/-- C3 witness: on the concrete January instance (a non-December month with
band minimum 8), staff 0's rest-day count lies in the band. -/
theorem solver_holiday_quota_witness :
    cexInput.reqHolidays ≤ offCount cexInput cexW 0 ∧
      offCount cexInput cexW 0 ≤ cexInput.reqHolidays + 1 :=
  (solver_holiday_quota cexInput cexW cex_hardConstraints).2.1 (by decide) 0 (by decide)

/-- C4: for every schedule satisfying the solver's hard constraints, every
staff member and every 5-day window — the window may begin up to 4 days
before day 0, those indices reading the trailing previous-month history —
the on-duty total over the window is at most 4. -/
theorem solver_rolling_window (I : SolveInput) (W : Nat → Nat → Bool)
    (h : hardConstraints I W) :
    ∀ s, s < I.staffs.length → ∀ start : Int, -4 ≤ start →
      start + 4 < (nDays I : Int) → windowSum I W s start ≤ 4 := by
  intro s hs start h1 h2
  have h6 := h.2.2.2.2.2.1 s hs ((start + 4).toNat) (by omega)
  have he : (((start + 4).toNat : Nat) : Int) - 4 = start := by omega
  rw [he] at h6
  exact h6

/-- C4 witness: the earliest window (starting 4 days before the month) of
staff 0 on the concrete January instance. -/
theorem solver_rolling_window_witness :
    windowSum cexInput cexW 0 (-4) ≤ 4 :=
  solver_rolling_window cexInput cexW cex_hardConstraints 0 (by decide) (-4)
    (by decide) (by decide)

/-! ## The draft ScheduleMatrix and change requests

`draft_schedule` is a table whose rows are staff names and whose columns
are date labels `f"{month}/{day}"`; since both the solver and the request
handlers format these labels from integers, a label is modelled as the
pair (month, day).  A change-request row keeps its parsed date (rows whose
date fails `pd.to_datetime` never satisfy the year/month masks and are
inert). -/

structure Draft where
  rows : List String
  cols : List (Nat × Nat)
  cell : String → Nat × Nat → String

/-- A 変更申請 row: timestamp key, staff name, parsed date, 種別, ステータス. -/
structure ChgRow where
  ts : String
  name : String
  y : Nat
  m : Nat
  d : Nat
  kind : String
  status : String
deriving DecidableEq

def dummyChg : ChgRow := ⟨"", "", 0, 0, 0, "", ""⟩

/-- Assignment `df_draft.at[nm, d_str] = v`. -/
def setCell (df : Draft) (nm : String) (c : Nat × Nat) (v : String) : Draft :=
  { df with cell := fun n c2 => if n = nm ∧ c2 = c then v else df.cell n c2 }

/-- The map `current_col = df_draft[d_str].to_dict()` overridden at the
candidate, `current_col[nm] = "0"`: the
day's column as a name→value map with the candidate's cell hypothetically
set to rest. -/
def hypoColumn (df : Draft) (nm : String) (c : Nat × Nat) : List (String × String) :=
  (df.rows.map (fun n => (n, df.cell n c))).map
    (fun p => if p.1 == nm then (p.1, "0") else p)

/-- Status write `req_chg.at[first row with the timestamp] = v`: update the status of
the first request row carrying the given timestamp (no-op when absent). -/
def setStatusFirst : List ChgRow → String → String → List ChgRow
  | [], _, _ => []
  | x :: xs, ts, v =>
    if x.ts == ts then { x with status := v } :: xs
    else x :: setStatusFirst xs ts v

/-- One iteration of the Phase-2 reduction-lottery loop: skip requests whose
staff or date label is missing from the draft or whose cell is already
rest; otherwise consult `check_daily_constraints` on the hypothetical
column and commit / reject accordingly. -/
def lotteryStep (staffs : List Staff) (rm : List (Nat × Nat))
    (st : Draft × List ChgRow) (r : ChgRow) : Draft × List ChgRow :=
  if r.name ∈ st.1.rows ∧ (r.m, r.d) ∈ st.1.cols then
    if st.1.cell r.name (r.m, r.d) == "0" then st
    else if (check_daily_constraints staffs (hypoColumn st.1 r.name (r.m, r.d))
        (some rm) (some (r.d - 1))).1 then
      (setCell st.1 r.name (r.m, r.d) "0", setStatusFirst st.2 r.ts "承認")
    else
      (st.1, setStatusFirst st.2 r.ts "却下")
  else st

/-- The whole lottery over the already-shuffled batch, threading the
mutating draft and the request table. -/
def runLottery (staffs : List Staff) (rm : List (Nat × Nat)) (order : List ChgRow)
    (df : Draft) (reqs : List ChgRow) : Draft × List ChgRow :=
  order.foldl (lotteryStep staffs rm) (df, reqs)

/-- Status of the first request row with the given timestamp. -/
def statusOfTs (reqs : List ChgRow) (ts : String) : String :=
  ((reqs.find? (fun r => r.ts == ts)).map (fun r => r.status)).getD ""

/-! ### A two-request lottery scenario

5 staff (all skills), one column with everybody on duty, default minimum 4:
flipping one person to rest stays feasible, flipping a second breaks the
headcount, so of two reduction requests for that day exactly the one
processed first is approved — whichever order the shuffle yields. -/

def scStaffs : List Staff :=
  [⟨"A", true, true, true, 120⟩, ⟨"B", true, true, true, 120⟩,
   ⟨"C", true, true, true, 120⟩, ⟨"D", true, true, true, 120⟩,
   ⟨"E", true, true, true, 120⟩]

def scDraft : Draft := ⟨["A", "B", "C", "D", "E"], [(3, 5)], fun _ _ => "1"⟩

def scReqA : ChgRow := ⟨"t1", "A", 2026, 3, 5, "休み希望", "申請"⟩

def scReqB : ChgRow := ⟨"t2", "B", 2026, 3, 5, "休み希望", "申請"⟩

def scReqs : List ChgRow := [scReqA, scReqB]

def scRes1 : Draft × List ChgRow := runLottery scStaffs [] [scReqA, scReqB] scDraft scReqs

def scRes2 : Draft × List ChgRow := runLottery scStaffs [] [scReqB, scReqA] scDraft scReqs

/-- C2: a lottery iteration on a request whose target cell is on duty
commits the flip to the shared draft and approves the request exactly when
the Feasibility Checker passes on the hypothetical column, and otherwise
leaves the draft unchanged and rejects it; and on the concrete
two-mutually-exclusive-request scenario, exactly the first request of the
shuffled order is approved and the other rejected, under either order. -/
theorem lottery_adjudication :
    (∀ (staffs : List Staff) (rm : List (Nat × Nat)) (df : Draft)
        (reqs : List ChgRow) (r : ChgRow),
      r.name ∈ df.rows → (r.m, r.d) ∈ df.cols → df.cell r.name (r.m, r.d) = "1" →
      (((check_daily_constraints staffs (hypoColumn df r.name (r.m, r.d))
            (some rm) (some (r.d - 1))).1 = true →
          lotteryStep staffs rm (df, reqs) r =
            (setCell df r.name (r.m, r.d) "0", setStatusFirst reqs r.ts "承認")) ∧
       ((check_daily_constraints staffs (hypoColumn df r.name (r.m, r.d))
            (some rm) (some (r.d - 1))).1 = false →
          lotteryStep staffs rm (df, reqs) r = (df, setStatusFirst reqs r.ts "却下")))) ∧
    (statusOfTs scRes1.2 "t1" = "承認" ∧ statusOfTs scRes1.2 "t2" = "却下" ∧
     scRes1.1.cell "A" (3, 5) = "0" ∧ scRes1.1.cell "B" (3, 5) = "1" ∧
     statusOfTs scRes2.2 "t2" = "承認" ∧ statusOfTs scRes2.2 "t1" = "却下" ∧
     scRes2.1.cell "B" (3, 5) = "0" ∧ scRes2.1.cell "A" (3, 5) = "1") := by
  constructor
  · intro staffs rm df reqs r h1 h2 h3
    have hne : ((df, reqs).1.cell r.name (r.m, r.d) == "0") = false := by
      show (df.cell r.name (r.m, r.d) == "0") = false
      rw [h3]; rfl
    constructor <;> intro hc <;>
      simp only [lotteryStep, if_pos (show r.name ∈ (df, reqs).1.rows ∧
        (r.m, r.d) ∈ (df, reqs).1.cols from ⟨h1, h2⟩), hne, Bool.false_eq_true,
        if_false, hc, if_true]
  · exact ⟨by decide, by decide, by decide, by decide, by decide, by decide,
      by decide, by decide⟩

/-- C8: a lottery iteration skips — leaving the draft and every request
status untouched, in particular the request still "申請" — any request
whose staff name or date column is missing from the draft, or whose target
cell is already rest. -/
theorem lottery_skip (staffs : List Staff) (rm : List (Nat × Nat)) (df : Draft)
    (reqs : List ChgRow) (r : ChgRow)
    (h : r.name ∉ df.rows ∨ (r.m, r.d) ∉ df.cols ∨ df.cell r.name (r.m, r.d) = "0") :
    lotteryStep staffs rm (df, reqs) r = (df, reqs) := by
  unfold lotteryStep
  by_cases hm : r.name ∈ df.rows ∧ (r.m, r.d) ∈ df.cols
  · have h0 : df.cell r.name (r.m, r.d) = "0" := by
      rcases h with h | h | h
      · exact absurd hm.1 h
      · exact absurd hm.2 h
      · exact h
    rw [if_pos hm, if_pos (show ((df, reqs).1.cell r.name (r.m, r.d) == "0") = true
      from by show (df.cell r.name (r.m, r.d) == "0") = true; rw [h0]; rfl)]
  · rw [if_neg hm]

/-- C8 witness: a request whose target cell is already rest is returned
unchanged. -/
theorem lottery_skip_witness :
    lotteryStep scStaffs [] (⟨["A"], [(3, 5)], fun _ _ => "0"⟩, scReqs) scReqA =
      (⟨["A"], [(3, 5)], fun _ _ => "0"⟩, scReqs) :=
  lottery_skip scStaffs [] ⟨["A"], [(3, 5)], fun _ _ => "0"⟩ scReqs scReqA
    (Or.inr (Or.inr rfl))

/-! ## The Phase-1 addition merge -/

/-- The mask selecting the requests the Phase-1 handler processes: target
month, kind 出勤希望, status 申請. -/
def isAddTarget (y m : Nat) (r : ChgRow) : Bool :=
  r.y == y && r.m == m && r.kind == "出勤希望" && r.status == "申請"

/-- One cell write of the merge loop: only performed when both the staff
name and the date column exist in the draft. -/
def applyAddReq (df : Draft) (r : ChgRow) : Draft :=
  if r.name ∈ df.rows ∧ (r.m, r.d) ∈ df.cols then setCell df r.name (r.m, r.d) "1"
  else df

/-- The status pass over the whole request table: every row matching the
mask is marked 承認, matched cell or not. -/
def approveIfTarget (y m : Nat) (r : ChgRow) : ChgRow :=
  if isAddTarget y m r then { r with status := "承認" } else r

/-- The Phase-1 merge: write "1" into every matched target cell, then mark
every target request approved.  (When no request matches, both passes are
the identity, matching the handler's `if target_reqs:` guard.) -/
def mergeAdditions (df : Draft) (reqs : List ChgRow) (y m : Nat) :
    Draft × List ChgRow :=
  ((reqs.filter (isAddTarget y m)).foldl applyAddReq df,
   reqs.map (approveIfTarget y m))

lemma applyAddReq_rows (df : Draft) (r : ChgRow) : (applyAddReq df r).rows = df.rows := by
  unfold applyAddReq setCell
  split <;> rfl

lemma applyAddReq_cols (df : Draft) (r : ChgRow) : (applyAddReq df r).cols = df.cols := by
  unfold applyAddReq setCell
  split <;> rfl

lemma foldlAdd_cell (l : List ChgRow) (df : Draft) (nm : String) (c : Nat × Nat) :
    (l.foldl applyAddReq df).cell nm c = df.cell nm c ∨
    ((l.foldl applyAddReq df).cell nm c = "1" ∧
      ∃ r, r ∈ l ∧ r.name = nm ∧ (r.m, r.d) = c ∧ nm ∈ df.rows ∧ c ∈ df.cols) := by
  induction l generalizing df with
  | nil => exact Or.inl rfl
  | cons r l ih =>
    rw [List.foldl_cons]
    rcases ih (applyAddReq df r) with h | ⟨h1, r', hmem, hn, hc, hrow, hcol⟩
    · by_cases hcond : r.name ∈ df.rows ∧ (r.m, r.d) ∈ df.cols
      · have ha : applyAddReq df r = setCell df r.name (r.m, r.d) "1" := by
          unfold applyAddReq
          rw [if_pos hcond]
        by_cases heq : nm = r.name ∧ c = (r.m, r.d)
        · obtain ⟨he1, he2⟩ := heq
          subst he1
          subst he2
          right
          refine ⟨?_, r, List.mem_cons_self r l, rfl, rfl, hcond.1, hcond.2⟩
          rw [h, ha]
          show (if r.name = r.name ∧ (r.m, r.d) = (r.m, r.d) then "1"
            else df.cell r.name (r.m, r.d)) = "1"
          rw [if_pos ⟨rfl, rfl⟩]
        · left
          rw [h, ha]
          show (if nm = r.name ∧ c = (r.m, r.d) then "1" else df.cell nm c) = df.cell nm c
          rw [if_neg heq]
      · have ha : applyAddReq df r = df := by
          unfold applyAddReq
          rw [if_neg hcond]
        left
        rw [h, ha]
    · right
      rw [applyAddReq_rows] at hrow
      rw [applyAddReq_cols] at hcol
      exact ⟨h1, r', List.mem_cons_of_mem r hmem, hn, hc, hrow, hcol⟩

/-- C9: the Phase-1 merge marks every target-month addition request with
status 申請 as 承認 — including requests whose staff name or date column
does not exist in the draft — while a draft cell changes only when some
target request actually addresses it with both the name and the column
present, in which case it is set to "1". -/
theorem addition_merge_approves (df : Draft) (reqs : List ChgRow) (y m : Nat) :
    (∀ i, i < reqs.length →
      (mergeAdditions df reqs y m).2.getD i dummyChg =
        (if isAddTarget y m (reqs.getD i dummyChg) then
          { reqs.getD i dummyChg with status := "承認" }
         else reqs.getD i dummyChg)) ∧
    (∀ nm c, (mergeAdditions df reqs y m).1.cell nm c ≠ df.cell nm c →
      (mergeAdditions df reqs y m).1.cell nm c = "1" ∧
      ∃ r, r ∈ reqs ∧ isAddTarget y m r = true ∧ r.name = nm ∧ (r.m, r.d) = c ∧
        nm ∈ df.rows ∧ c ∈ df.cols) := by
  constructor
  · intro i hi
    show (reqs.map (approveIfTarget y m)).getD i dummyChg = _
    have hlen : i < (reqs.map (approveIfTarget y m)).length := by
      simpa using hi
    rw [List.getD_eq_getElem _ _ hlen, List.getElem_map,
      ← List.getD_eq_getElem _ dummyChg hi]
    rfl
  · intro nm c hne
    rcases foldlAdd_cell (reqs.filter (isAddTarget y m)) df nm c with
      h | ⟨h1, r, hmem, hn, hc, hrow, hcol⟩
    · exact absurd h hne
    · have hf := List.mem_filter.mp hmem
      exact ⟨h1, r, hf.1, hf.2, hn, hc, hrow, hcol⟩

/-! ## The HistoryLog fold (`update_log_sheet`) -/

structure Date where
  y : Nat
  m : Nat
  d : Nat
deriving DecidableEq

/-- One ログ row: its (parsed) date plus the remaining columns (weekday
label and one cell per staff), which the fold never inspects. -/
abbrev LogRow := Date × List String

/-- Chronological order on log rows, the order `sort_values('日付')` uses. -/
def rowLe (a b : LogRow) : Prop :=
  a.1.y < b.1.y ∨ (a.1.y = b.1.y ∧ (a.1.m < b.1.m ∨ (a.1.m = b.1.m ∧ a.1.d ≤ b.1.d)))

instance : DecidableRel rowLe := fun a b => by unfold rowLe; infer_instance

instance : IsTotal LogRow rowLe := ⟨fun a b => by unfold rowLe; omega⟩

instance : IsTrans LogRow rowLe := ⟨fun a b c => by unfold rowLe; omega⟩

/-- The fold `update_log_sheet(new_df)` against the current ログ contents: when both
tables are non-empty, drop every current row whose date falls in the year
and month of the first new row, then concatenate and sort ascending by
date (rows with unparseable dates were already dropped by `dropna`). -/
def update_log_sheet (current newRows : List LogRow) : List LogRow :=
  List.insertionSort rowLe
    ((match newRows.head? with
      | none => current
      | some r0 =>
        if current.isEmpty then current
        else current.filter (fun r => !(r.1.y == r0.1.y && r.1.m == r0.1.m))) ++ newRows)

/-- C7: folding a month's finalized matrix into the log replaces exactly
the existing rows of that year and month (the result is, as a multiset,
the other months' current rows plus the new rows), keeps every row of any
other month, and is sorted ascending by date. -/
theorem log_fold (current newRows : List LogRow) (r0 : LogRow)
    (h0 : newRows.head? = some r0)
    (hall : ∀ r ∈ newRows, r.1.y = r0.1.y ∧ r.1.m = r0.1.m) :
    List.Perm (update_log_sheet current newRows)
      (current.filter (fun r => !(r.1.y == r0.1.y && r.1.m == r0.1.m)) ++ newRows) ∧
    List.Sorted rowLe (update_log_sheet current newRows) ∧
    (∀ r ∈ current, ¬(r.1.y = r0.1.y ∧ r.1.m = r0.1.m) →
      r ∈ update_log_sheet current newRows) := by
  clear hall
  cases newRows with
  | nil => exact absurd h0 (by simp)
  | cons n0 ns =>
    have hn : n0 = r0 := by simpa using h0
    subst hn
    have hrw : update_log_sheet current (n0 :: ns) =
        List.insertionSort rowLe
          ((if current.isEmpty then current
            else current.filter (fun r => !(r.1.y == n0.1.y && r.1.m == n0.1.m)))
            ++ (n0 :: ns)) := rfl
    rw [hrw]
    by_cases hc : current.isEmpty
    · have hcur : current = [] := List.isEmpty_iff.mp hc
      subst hcur
      rw [if_pos hc]
      refine ⟨by simpa using List.perm_insertionSort rowLe (n0 :: ns),
        List.sorted_insertionSort rowLe _, ?_⟩
      intro r hr
      exact absurd hr (List.not_mem_nil r)
    · rw [if_neg hc]
      refine ⟨List.perm_insertionSort rowLe _, List.sorted_insertionSort rowLe _, ?_⟩
      intro r hr hne
      have hmem : r ∈ current.filter (fun r => !(r.1.y == n0.1.y && r.1.m == n0.1.m)) := by
        rw [List.mem_filter]
        refine ⟨hr, ?_⟩
        simp only [Bool.not_eq_true', Bool.and_eq_false_iff, beq_eq_false_iff_ne, ne_eq]
        omega
      exact ((List.perm_insertionSort rowLe _).mem_iff).mpr (List.mem_append_left _ hmem)

def w7row1 : LogRow := (⟨2026, 2, 28⟩, ["土", "1"])

def w7row2 : LogRow := (⟨2026, 3, 1⟩, ["日", "0"])

def w7row3 : LogRow := (⟨2026, 4, 2⟩, ["木", "1"])

def w7new : LogRow := (⟨2026, 3, 2⟩, ["月", "1"])

/-- C7 witness: a concrete fold of one March row into a log holding
February, March and April rows replaces only the March row and stays
sorted. -/
theorem log_fold_witness :
    List.Perm (update_log_sheet [w7row1, w7row2, w7row3] [w7new])
      ([w7row1, w7row2, w7row3].filter
        (fun r => !(r.1.y == 2026 && r.1.m == 3)) ++ [w7new]) ∧
    List.Sorted rowLe (update_log_sheet [w7row1, w7row2, w7row3] [w7new]) := by
  have h := log_fold [w7row1, w7row2, w7row3] [w7new] w7new rfl (by decide)
  exact ⟨h.1, h.2.1⟩

/-! ## The phase state machine (Phase-1 / Phase-2 tab gating)

The whole application state a merge or finalize operation can touch.  The
two handlers run only under their matching `current_phase`; modelled as
functions that return the state unchanged otherwise. -/

structure SysState where
  phase : String
  draft : Draft
  reqs : List ChgRow
  log : List LogRow
  reqPlan : List (Date × Nat)

/-- Day-of-week labels, indexed like Python `date.weekday()`. -/
def wdJp : List String := ["月", "火", "水", "木", "金", "土", "日"]

def daysBeforeMonth (y m : Nat) : Nat :=
  ((List.range (m - 1)).map (fun k => monthDays y (k + 1))).foldl (· + ·) 0

def weekdayIdx (y m d : Nat) : Nat :=
  (365 * (y - 1) + (y - 1) / 4 + (y - 1) / 400 + daysBeforeMonth y m + (d - 1))
    - (y - 1) / 100

def weekdayLabel (y m d : Nat) : String := wdJp.getD (weekdayIdx y m d % 7) "-"

/-- The 削減申請 mask of the Phase-2 handler. -/
def isRedTarget (y m : Nat) (r : ChgRow) : Bool :=
  r.y == y && r.m == m && r.kind == "休み希望" && r.status == "申請"

/-- The `req_map` rebuilt from the draft_requirements rows of the target month. -/
def buildReqMap (plan : List (Date × Nat)) (y m : Nat) : List (Nat × Nat) :=
  plan.filterMap (fun p =>
    if p.1.y == y && p.1.m == m then some (p.1.d - 1, p.2) else none)

/-- The `new_logs` list: one log row per draft column whose label parses as a date
of the processing year (`pd.to_datetime(f"{year}/{c}")`). -/
def logRowsOf (y : Nat) (df : Draft) : List LogRow :=
  df.cols.filterMap (fun c =>
    if 1 ≤ c.1 ∧ c.1 ≤ 12 ∧ 1 ≤ c.2 ∧ c.2 ≤ monthDays y c.1 then
      some (⟨y, c.1, c.2⟩, weekdayLabel y c.1 c.2 :: df.rows.map (fun nm => df.cell nm c))
    else none)

/-- The Phase-1 button: merge and approve the addition requests, then
advance to Phase 2 (even when no request matched); empty draft aborts with
no mutation.  Outside Phase 1 the tab is inert. -/
def applyAdditionMergePhase (y m : Nat) (st : SysState) : SysState :=
  if st.phase = "1_追加申請" then
    if st.draft.rows.isEmpty then st
    else
      { st with draft := (mergeAdditions st.draft st.reqs y m).1,
                reqs := (mergeAdditions st.draft st.reqs y m).2,
                phase := "2_削減申請" }
  else st

def emptyDraft : Draft := ⟨[], [], fun _ _ => ""⟩

/-- The Phase-2 button: run the lottery over the shuffled reduction batch
(when any), fold the resulting draft into the log, clear the draft and the
requirement plan and reset the phase — the phase reset and clearing happen
only when at least one draft column produced a log row, mirroring the
`if new_logs:` guard (the request statuses are persisted inside the
lottery block either way, while the mutated in-memory draft is never
written back to draft_schedule, so without log rows the stored draft keeps
its old contents).  Outside Phase 2 the tab is inert. -/
def applyLotteryFinalize (staffs : List Staff) (shuffle : List ChgRow → List ChgRow)
    (y m : Nat) (st : SysState) : SysState :=
  if st.phase = "2_削減申請" then
    if st.draft.rows.isEmpty then st
    else
      let res :=
        if (st.reqs.filter (isRedTarget y m)).isEmpty then (st.draft, st.reqs)
        else runLottery staffs (buildReqMap st.reqPlan y m)
          (shuffle (st.reqs.filter (isRedTarget y m))) st.draft st.reqs
      if (logRowsOf y res.1).isEmpty then { st with reqs := res.2 }
      else
        { phase := "0_通常", draft := emptyDraft, reqs := res.2,
          log := update_log_sheet st.log (logRowsOf y res.1), reqPlan := [] }
  else st

/-- C6: a merge or finalize invoked while the phase does not match it is
rejected with no mutation — the draft matrix, request statuses, history
log, requirement plan and phase are all returned unchanged. -/
theorem out_of_phase_rejected (staffs : List Staff)
    (shuffle : List ChgRow → List ChgRow) (y m : Nat) (st : SysState) :
    (st.phase ≠ "1_追加申請" → applyAdditionMergePhase y m st = st) ∧
    (st.phase ≠ "2_削減申請" → applyLotteryFinalize staffs shuffle y m st = st) := by
  constructor
  · intro h
    unfold applyAdditionMergePhase
    rw [if_neg h]
  · intro h
    unfold applyLotteryFinalize
    rw [if_neg h]

end KclinicShift
